import Mathlib

/-!
Shallow embedding of `shorturl.py` (lysandraBars/short-link), a command-line
URL shortener with a bounded JSON history.

Modelling conventions:
* The JSON history file is modelled as a `List LinkRecord`; every function of
  the source that reads and rewrites the file takes the stored list and
  returns the stored list after the call (unchanged when the source does not
  write the file).
* `time.time()` values and `expiry_timestamp` fields are modelled as `Int`
  (JSON numeric epoch seconds); Python numeric truthiness (`0` is falsy) is
  embedded as an explicit `≠ 0` test wherever the source tests a number for
  truth.
* The network (`requests.get` inside `get_short_url`) is modelled as an
  oracle `resp : Nat → String` giving the text obtained by the i-th HTTP
  attempt (success body or the formatted error message built in
  `get_short_url`); `time.sleep(1)` is modelled by counting sleeps.
* Python's `"Error" in s` substring test is `hasError`; Python string
  truthiness (`""` is falsy) is an explicit `≠ ""` test.
-/

set_option autoImplicit false

namespace ShortLink

/-- `MAX_HISTORY_SIZE = 5` from the configuration section. -/
def MAX_HISTORY_SIZE : Nat := 5

/-- One entry of the JSON history array, as built in `save_to_history`. -/
structure LinkRecord where
  long_url : String
  short_url : String
  timestamp : String
  custom_name : Option String
  expiry_timestamp : Option Int
  deriving Repr, DecidableEq

/-! ### URL validator (`is_valid_url`, via `urllib.parse.urlparse`)

`urlparse` is standard-library code, not part of this repository; the model
below reproduces the part of CPython's `urlsplit` that `is_valid_url`
depends on: extraction of the scheme (a leading ASCII letter followed by
letters, digits, `+`, `-`, `.`, up to a colon at index > 0) and of the
netloc (after `//`, up to `/`, `?` or `#`), and the `ValueError` raised on
unbalanced square brackets in the netloc (caught by `is_valid_url`). -/

/-- Characters allowed in a URL scheme name, as in CPython `scheme_chars`. -/
def schemeChar (c : Char) : Bool :=
  c.isAlpha || c.isDigit || c == '+' || c == '-' || c == '.'

/-- Split off the scheme: if the input has a colon at index > 0 and everything
before the first colon is a valid scheme name starting with a letter, return
the lowercased scheme and the rest after the colon; otherwise the scheme is
empty and the input is unchanged. -/
def splitScheme (cs : List Char) : List Char × List Char :=
  let pre := cs.takeWhile (fun c => c ≠ ':')
  if pre.length < cs.length ∧ 0 < pre.length ∧
      (pre.headD 'a').isAlpha ∧ pre.all schemeChar then
    (pre.map Char.toLower, cs.drop (pre.length + 1))
  else ([], cs)

/-- After scheme removal: if the rest starts with `//`, the netloc is what
follows up to the first `/`, `?` or `#`. -/
def splitNetloc (cs : List Char) : List Char :=
  match cs with
  | '/' :: '/' :: rest => rest.takeWhile (fun c => c ≠ '/' ∧ c ≠ '?' ∧ c ≠ '#')
  | _ => []

/-- CPython `urlsplit` raises `ValueError` when the netloc contains one kind
of square bracket without the other; `is_valid_url` catches it. -/
def bracketsOk (netloc : List Char) : Bool :=
  (netloc.contains '[' == netloc.contains ']')

/-- `is_valid_url`: parse, then require both a non-empty scheme and a
non-empty netloc; a `ValueError` from parsing yields `False`. -/
def is_valid_url (url : String) : Bool :=
  let (scheme, rest) := splitScheme url.toList
  let netloc := splitNetloc rest
  if bracketsOk netloc then
    decide (scheme ≠ []) && decide (netloc ≠ [])
  else
    false

/-! ### Shortening client (`get_short_url` / `shorten_url`) -/

/-- Tests that the first list is an initial segment of the second. -/
def startsWithChars : List Char → List Char → Bool
  | [], _ => true
  | _ :: _, [] => false
  | p :: ps, c :: cs => p == c && startsWithChars ps cs

/-- Substring containment on character lists (Python's `pat in s`). -/
def containsSubstr : List Char → List Char → Bool
  | [], pat => pat.isEmpty
  | c :: rest, pat => startsWithChars pat (c :: rest) || containsSubstr rest pat

/-- Python's `"Error" in s` substring test. -/
def hasError (s : String) : Bool := containsSubstr s.toList "Error".toList

/-- Observable outcome of one `shorten_url` call: the returned text, the
number of HTTP attempts made (`get_short_url` calls), and the number of
`time.sleep(1)` calls executed. -/
structure ShortenRun where
  result : String
  calls : Nat
  sleeps : Nat
  deriving Repr, DecidableEq

/-- The `for _ in range(3)` retry loop of `shorten_url`: each iteration calls
the API (`resp st.calls` is the text of the next attempt); a result without
`"Error"` is returned at once; otherwise the loop sleeps one second and goes
round again; when the range is exhausted the last obtained text is
returned. -/
def shortenLoop (resp : Nat → String) : Nat → ShortenRun → ShortenRun
  | 0, st => st
  | n + 1, st =>
    let s := resp st.calls
    if hasError s then
      shortenLoop resp n ⟨s, st.calls + 1, st.sleeps + 1⟩
    else
      ⟨s, st.calls + 1, st.sleeps⟩

/-- `shorten_url(long_url)`: validate first (no attempt, no sleep on
failure), then run the bounded retry loop. -/
def shorten_url (long_url : String) (resp : Nat → String) : ShortenRun :=
  if ¬ is_valid_url long_url then
    ⟨"Invalid URL format.", 0, 0⟩
  else
    shortenLoop resp 3 ⟨"", 0, 0⟩

/-! ### History store (`save_to_history`, `delete_expired_links`) -/

/-- The record built in `save_to_history`:
`expiry_timestamp = time.time() + expiry_seconds if expiry_seconds else None`
(Python truthiness: `expiry_seconds` of `None` or `0` gives `None`). -/
def mkRecord (long_url short_url : String) (custom_name : Option String)
    (expiry_seconds : Option Int) (now : Int) (ctime : String) : LinkRecord :=
  { long_url := long_url
    short_url := short_url
    timestamp := ctime
    custom_name := custom_name
    expiry_timestamp :=
      match expiry_seconds with
      | some n => if n ≠ 0 then some (now + n) else none
      | none => none }

/-- The append-and-bound step of `save_to_history`: `history.append(...)` then
`history = history[-MAX_HISTORY_SIZE:]` when the length exceeds the bound. -/
def save_record (history : List LinkRecord) (r : LinkRecord) : List LinkRecord :=
  let h := history ++ [r]
  if h.length > MAX_HISTORY_SIZE then h.drop (h.length - MAX_HISTORY_SIZE) else h

/-- `save_to_history(long_url, short_url, custom_name, expiry_seconds)`:
load the stored list (the `history` argument), append the new record, trim to
the most recent `MAX_HISTORY_SIZE`, write back. Returns the stored list after
the call. -/
def save_to_history (history : List LinkRecord) (long_url short_url : String)
    (custom_name : Option String) (expiry_seconds : Option Int)
    (now : Int) (ctime : String) : List LinkRecord :=
  save_record history (mkRecord long_url short_url custom_name expiry_seconds now ctime)

/-- The per-entry test of `delete_expired_links`:
`entry.get("expiry_timestamp") and current_time > entry["expiry_timestamp"]`
(a stored `0` timestamp is falsy, so such an entry is never expired). -/
def is_expired_entry (now : Int) (e : LinkRecord) : Bool :=
  match e.expiry_timestamp with
  | some t => decide (t ≠ 0) && decide (now > t)
  | none => false

/-- `delete_expired_links()`: load, keep every entry that is not expired,
write back. Returns the stored list after the call. -/
def delete_expired_links (now : Int) (history : List LinkRecord) : List LinkRecord :=
  history.filter (fun e => ! is_expired_entry now e)

/-! ### `update_link` -/

/-- The console message `update_link` ends with. -/
inductive UpdateMsg
  | linkUpdated
  | linkNotFound
  | newUrlInvalid
  deriving Repr, DecidableEq

/-- The body of `update_link`'s loop applied to the first matching entry:
`if new_long_url:` (skipped when `None` or `""`) validates and replaces
`long_url` and `short_url` (the whole call returns, persisting nothing, when
validation fails — modelled by `none`); then `if new_expiry_seconds is not
None:` overwrites `expiry_timestamp` with `now + new_expiry_seconds`. -/
def update_entry (now : Int) (shorten : String → String)
    (new_long_url : Option String) (new_expiry_seconds : Option Int)
    (e : LinkRecord) : Option LinkRecord :=
  let afterUrl : Option LinkRecord :=
    match new_long_url with
    | some s =>
      if s ≠ "" then
        if is_valid_url s then
          some { e with long_url := s, short_url := shorten s }
        else
          none
      else
        some e
    | none => some e
  match afterUrl with
  | none => none
  | some e1 =>
    some (match new_expiry_seconds with
          | some n => { e1 with expiry_timestamp := some (now + n) }
          | none => e1)

/-- Result of the scan over the loaded history: no entry with the given
custom name (`updated` stays false), an abort on an invalid new URL
(`return` before any write), or the mutated list after the first match. -/
inductive UpdateScan
  | notFound
  | aborted
  | found (h : List LinkRecord)
  deriving Repr, DecidableEq

/-- The `for entry in history` loop of `update_link`: act on the first entry
whose `custom_name` equals the given name, then `break`. -/
def update_scan (now : Int) (shorten : String → String) (custom_name : String)
    (new_long_url : Option String) (new_expiry_seconds : Option Int) :
    List LinkRecord → UpdateScan
  | [] => .notFound
  | e :: rest =>
    if e.custom_name = some custom_name then
      match update_entry now shorten new_long_url new_expiry_seconds e with
      | none => .aborted
      | some e1 => .found (e1 :: rest)
    else
      match update_scan now shorten custom_name new_long_url new_expiry_seconds rest with
      | .found rest1 => .found (e :: rest1)
      | other => other

/-- `update_link(custom_name, new_long_url, new_expiry_seconds)`: the file is
rewritten only when `updated` became true; on a not-found name or an invalid
new URL the stored list is unchanged. Returns the stored list after the call
together with the message printed. -/
def update_link (now : Int) (shorten : String → String) (custom_name : String)
    (new_long_url : Option String) (new_expiry_seconds : Option Int)
    (history : List LinkRecord) : List LinkRecord × UpdateMsg :=
  match update_scan now shorten custom_name new_long_url new_expiry_seconds history with
  | .notFound => (history, .linkNotFound)
  | .aborted => (history, .newUrlInvalid)
  | .found h1 => (h1, .linkUpdated)

/-! ### Reminder (`remind_expiring_links`) -/

/-- `remind_expiring_links()`: the entries a reminder is printed for — those
whose `expiry_timestamp` is truthy (set and nonzero) with
`expiry_timestamp - current_time <= 3600`. -/
def remind_expiring_links (now : Int) (history : List LinkRecord) : List LinkRecord :=
  history.filter (fun e =>
    match e.expiry_timestamp with
    | some t => decide (t ≠ 0) && decide (t - now ≤ 3600)
    | none => false)

/-! ### The create and clipboard flows -/

/-- Menu choice 1 of `main_menu`: `long_url` has already passed the input
loop's validation; `shorten_url` is run and the record is saved only when the
returned text does not contain `"Error"`. Returns the stored list after the
flow. -/
def menu_create_flow (history : List LinkRecord) (long_url : String)
    (resp : Nat → String) (custom_name : Option String)
    (expiry_seconds : Option Int) (now : Int) (ctime : String) : List LinkRecord :=
  let short_url := (shorten_url long_url resp).result
  if hasError short_url then
    history
  else
    save_to_history history long_url short_url custom_name expiry_seconds now ctime

/-- `shorten_url_from_clipboard()`: validate the clipboard text, shorten, and
save (with no custom name and no expiry) only when the returned text does not
contain `"Error"`. Returns the stored list after the flow. -/
def shorten_url_from_clipboard (history : List LinkRecord) (clip : String)
    (resp : Nat → String) (now : Int) (ctime : String) : List LinkRecord :=
  if ¬ is_valid_url clip then
    history
  else
    let short_url := (shorten_url clip resp).result
    if hasError short_url then
      history
    else
      save_to_history history clip short_url none none now ctime

/-- Arguments of one `save_to_history` call, for iterating appends. -/
structure SaveRequest where
  long_url : String
  short_url : String
  custom_name : Option String
  expiry_seconds : Option Int
  now : Int
  ctime : String
  deriving Repr, DecidableEq

/-- The record a `SaveRequest` appends. -/
def SaveRequest.record (q : SaveRequest) : LinkRecord :=
  mkRecord q.long_url q.short_url q.custom_name q.expiry_seconds q.now q.ctime

/-- A sequence of `save_to_history` calls, oldest first. -/
def run_saves (history : List LinkRecord) : List SaveRequest → List LinkRecord
  | [] => history
  | q :: qs =>
    run_saves (save_to_history history q.long_url q.short_url q.custom_name
      q.expiry_seconds q.now q.ctime) qs

/-! ### Concrete inputs used by witnesses and counterexamples -/

/-- Concrete responses: connection errors on the first two attempts, a clean
short URL on the third. -/
def respErrErrClean : Nat → String := fun n =>
  if n < 2 then "Connection Error: connection refused" else "https://tinyurl.com/ok1"

/-- Concrete all-error responses. -/
def respAllErr : Nat → String := fun _ => "Request Error: timed out"

/-- A concrete record carrying the custom name `"a"` and no expiry. -/
def sampleNamedRec : LinkRecord :=
  { long_url := "http://old.com", short_url := "https://tinyurl.com/old"
    timestamp := "t", custom_name := some "a", expiry_timestamp := none }

/-- A concrete record whose stored expiry timestamp is the falsy value `0`. -/
def zeroExpiryRec : LinkRecord :=
  { long_url := "http://z.com", short_url := "https://tinyurl.com/z"
    timestamp := "t", custom_name := none, expiry_timestamp := some 0 }

/-- A concrete record whose expiry timestamp (10) is already past at time 100. -/
def pastExpiryRec : LinkRecord :=
  { long_url := "http://p.com", short_url := "https://tinyurl.com/p"
    timestamp := "t", custom_name := none, expiry_timestamp := some 10 }

/-- Six concrete `save_to_history` calls, oldest first. -/
def sixSaves : List SaveRequest :=
  [⟨"http://u0.com", "s0", none, none, 0, "t0"⟩,
   ⟨"http://u1.com", "s1", none, none, 1, "t1"⟩,
   ⟨"http://u2.com", "s2", none, none, 2, "t2"⟩,
   ⟨"http://u3.com", "s3", none, none, 3, "t3"⟩,
   ⟨"http://u4.com", "s4", none, none, 4, "t4"⟩,
   ⟨"http://u5.com", "s5", none, none, 5, "t5"⟩]

/-- The trim step of `save_to_history` (`history[-MAX_HISTORY_SIZE:]` applied
when the length exceeds the bound), as a standalone function on lists. -/
def boundHist (l : List LinkRecord) : List LinkRecord :=
  if l.length > MAX_HISTORY_SIZE then l.drop (l.length - MAX_HISTORY_SIZE) else l

/-! ## Theorems -/

/-- `save_record` is append followed by the trim step. -/
theorem save_record_eq_boundHist (h : List LinkRecord) (r : LinkRecord) :
    save_record h r = boundHist (h ++ [r]) := rfl

/-- Dropping from the left half of an append, then dropping more, is one big
drop. -/
theorem drop_append_drop {α : Type} (x y : List α) (k m : Nat) (hk : k ≤ x.length) :
    (x.drop k ++ y).drop m = (x ++ y).drop (k + m) := by
  have ht : (x.take k).length = k := by rw [List.length_take]; omega
  have h1 : (x.take k ++ (x.drop k ++ y)).drop ((x.take k).length + m) =
      (x.drop k ++ y).drop m := List.drop_append m
  rw [ht] at h1
  rw [← h1, ← List.append_assoc, List.take_append_drop]

/-- The trim step never leaves more than `MAX_HISTORY_SIZE` records. -/
theorem length_boundHist (l : List LinkRecord) :
    (boundHist l).length ≤ MAX_HISTORY_SIZE := by
  unfold boundHist
  split
  · rw [List.length_drop]; omega
  · omega

/-- Trimming, appending more, and trimming again is the same as trimming the
whole append: eviction is oldest-first and commutes with later appends. -/
theorem boundHist_append (x y : List LinkRecord) :
    boundHist (boundHist x ++ y) = boundHist (x ++ y) := by
  by_cases hx : x.length > MAX_HISTORY_SIZE
  · have hbx : boundHist x = x.drop (x.length - MAX_HISTORY_SIZE) := by
      unfold boundHist; rw [if_pos hx]
    have hlen : (x.drop (x.length - MAX_HISTORY_SIZE)).length = MAX_HISTORY_SIZE := by
      rw [List.length_drop]; omega
    rcases y with _ | ⟨a, ys⟩
    · rw [List.append_nil, List.append_nil, hbx]
      unfold boundHist
      rw [if_neg (by rw [hlen]; omega)]
    · have h1 : (x.drop (x.length - MAX_HISTORY_SIZE) ++ a :: ys).length >
          MAX_HISTORY_SIZE := by
        rw [List.length_append, hlen, List.length_cons]; omega
      have h2 : (x ++ a :: ys).length > MAX_HISTORY_SIZE := by
        rw [List.length_append, List.length_cons]; omega
      rw [hbx]
      unfold boundHist
      rw [if_pos h1, if_pos h2,
        drop_append_drop x (a :: ys) (x.length - MAX_HISTORY_SIZE) _ (by omega)]
      congr 1
      rw [List.length_append, List.length_append, hlen]
      omega
  · have hbx : boundHist x = x := by unfold boundHist; rw [if_neg hx]
    rw [hbx]

/-- A nonempty run of `save_to_history` calls equals appending all the
records and trimming once. -/
theorem run_saves_eq_boundHist (qs : List SaveRequest) :
    ∀ (h : List LinkRecord), qs ≠ [] →
      run_saves h qs = boundHist (h ++ qs.map SaveRequest.record) := by
  induction qs with
  | nil => intro h hne; exact absurd rfl hne
  | cons q qs ih =>
    intro h _
    rcases qs with _ | ⟨q1, qs1⟩
    · simp only [run_saves, List.map]
      exact save_record_eq_boundHist h q.record
    · have step : run_saves h (q :: q1 :: qs1) =
          run_saves (save_record h q.record) (q1 :: qs1) := rfl
      rw [step, ih _ (by simp), save_record_eq_boundHist, boundHist_append]
      simp

/-- C2: the stored history never exceeds `MAX_HISTORY_SIZE` (5) after any
`save_to_history` call, and after more than 5 appends exactly the 5 most
recently appended records remain, in their insertion order, whatever the
starting history. -/
theorem C2_history_bound :
    (∀ (h : List LinkRecord) (lu su : String) (cn : Option String)
        (es : Option Int) (now : Int) (ct : String),
      (save_to_history h lu su cn es now ct).length ≤ MAX_HISTORY_SIZE) ∧
    (∀ (h : List LinkRecord) (qs : List SaveRequest),
      qs.length > MAX_HISTORY_SIZE →
      run_saves h qs =
        (qs.map SaveRequest.record).drop (qs.length - MAX_HISTORY_SIZE)) := by
  constructor
  · intro h lu su cn es now ct
    calc (save_to_history h lu su cn es now ct).length
        = (boundHist (h ++ [mkRecord lu su cn es now ct])).length := rfl
      _ ≤ MAX_HISTORY_SIZE := length_boundHist _
  · intro h qs hlen
    have hne : qs ≠ [] := by
      intro hq; rw [hq] at hlen; simp at hlen
    rw [run_saves_eq_boundHist qs h hne]
    unfold boundHist
    have hgt : (h ++ qs.map SaveRequest.record).length > MAX_HISTORY_SIZE := by
      rw [List.length_append, List.length_map]; omega
    rw [if_pos hgt]
    have harith : (h ++ qs.map SaveRequest.record).length - MAX_HISTORY_SIZE =
        h.length + (qs.length - MAX_HISTORY_SIZE) := by
      rw [List.length_append, List.length_map]; omega
    rw [harith, List.drop_append]

/-- Witness for C2: one concrete append stays within the bound, and six
concrete appends to an empty history keep exactly the last five. -/
theorem C2_witness :
    (save_to_history [] "http://u.com" "s" none none 0 "t").length ≤
      MAX_HISTORY_SIZE ∧
    sixSaves.length > MAX_HISTORY_SIZE ∧
    run_saves [] sixSaves =
      (sixSaves.map SaveRequest.record).drop (sixSaves.length - MAX_HISTORY_SIZE) :=
  ⟨C2_history_bound.1 [] "http://u.com" "s" none none 0 "t",
    by decide,
    C2_history_bound.2 [] sixSaves (by decide)⟩

/-- Sleep count of the retry loop grows by at most the remaining fuel. -/
theorem shortenLoop_sleeps_le (resp : Nat → String) :
    ∀ (n : Nat) (st : ShortenRun), (shortenLoop resp n st).sleeps ≤ st.sleeps + n := by
  intro n
  induction n with
  | zero => intro st; simp [shortenLoop]
  | succ n ih =>
    intro st
    simp only [shortenLoop]
    split
    · refine le_trans (ih _) ?_
      show st.sleeps + 1 + n ≤ st.sleeps + (n + 1)
      omega
    · show st.sleeps ≤ st.sleeps + (n + 1)
      omega

/-- C4: if the HTTP call yields an error-containing string on the first two
attempts and a clean string on the third, then `shorten_url` on a valid URL
makes exactly three calls, sleeps twice, and returns the third string. -/
theorem C4_retry_twice_then_return_clean (long_url : String) (resp : Nat → String)
    (hv : is_valid_url long_url = true)
    (h0 : hasError (resp 0) = true) (h1 : hasError (resp 1) = true)
    (h2 : hasError (resp 2) = false) :
    shorten_url long_url resp = ⟨resp 2, 3, 2⟩ := by
  simp [shorten_url, hv, shortenLoop, h0, h1, h2]

/-- Witness for C4 at a concrete valid URL and concrete responses. -/
theorem C4_witness :
    is_valid_url "http://example.com" = true ∧
    hasError (respErrErrClean 0) = true ∧
    hasError (respErrErrClean 1) = true ∧
    hasError (respErrErrClean 2) = false ∧
    shorten_url "http://example.com" respErrErrClean =
      ⟨"https://tinyurl.com/ok1", 3, 2⟩ :=
  ⟨by decide, by decide, by decide, by decide,
    C4_retry_twice_then_return_clean "http://example.com" respErrErrClean
      (by decide) (by decide) (by decide) (by decide)⟩

/-- C5: an input failing URL validation yields the fixed
`"Invalid URL format."` message with zero HTTP attempts (and no sleeps). -/
theorem C5_invalid_url_no_network (long_url : String) (resp : Nat → String)
    (h : is_valid_url long_url = false) :
    shorten_url long_url resp = ⟨"Invalid URL format.", 0, 0⟩ := by
  simp [shorten_url, h]

/-- Witness for C5 at the spec's example input `"not a url"`. -/
theorem C5_witness :
    is_valid_url "not a url" = false ∧
    shorten_url "not a url" respErrErrClean = ⟨"Invalid URL format.", 0, 0⟩ :=
  ⟨by decide, C5_invalid_url_no_network "not a url" respErrErrClean (by decide)⟩

/-- Counterexample to C8: when all three attempts yield error-containing
text, the loop sleeps after the third (final) attempt as well, so three
one-second sleeps occur, not at most two. -/
theorem C8_counterexample :
    (shorten_url "http://example.com" (fun _ => "HTTP Error: 500")).sleeps = 3 := by
  decide

/-- C8 (amended): every `shorten_url` call executes at most three one-second
sleeps; a sleep follows every failed attempt, including the final one, so
three failed attempts on a valid URL sleep exactly three times. -/
theorem C8_sleep_bound (long_url : String) (resp : Nat → String) :
    (shorten_url long_url resp).sleeps ≤ 3 ∧
    (is_valid_url long_url = true →
      hasError (resp 0) = true → hasError (resp 1) = true → hasError (resp 2) = true →
      (shorten_url long_url resp).sleeps = 3) := by
  constructor
  · unfold shorten_url
    split
    · simp
    · exact le_trans (shortenLoop_sleeps_le resp 3 ⟨"", 0, 0⟩) (by simp)
  · intro hv h0 h1 h2
    simp [shorten_url, hv, shortenLoop, h0, h1, h2]

/-- Witness for C8 at a concrete valid URL with three failing attempts. -/
theorem C8_witness :
    (shorten_url "http://example.com" respAllErr).sleeps ≤ 3 ∧
    (shorten_url "http://example.com" respAllErr).sleeps = 3 :=
  ⟨(C8_sleep_bound "http://example.com" respAllErr).1,
    (C8_sleep_bound "http://example.com" respAllErr).2
      (by decide) (by decide) (by decide) (by decide)⟩

/-- Counterexample to C3: a stored record whose `expiry_timestamp` is the
falsy value `0` is strictly earlier than the current time `1`, yet
`delete_expired_links` keeps it (Python's truthiness test skips `0`). -/
theorem C3_counterexample :
    zeroExpiryRec.expiry_timestamp = some 0 ∧ (0 : Int) < 1 ∧
    delete_expired_links 1 [zeroExpiryRec] = [zeroExpiryRec] := by
  refine ⟨rfl, by decide, ?_⟩
  decide

/-- C3 (amended): `delete_expired_links` removes exactly the records whose
`expiry_timestamp` is set, nonzero, and strictly earlier than the current
time; it preserves the relative order of the remaining records and is
idempotent. -/
theorem C3_prune_exact (now : Int) (h : List LinkRecord) :
    (delete_expired_links now h).Sublist h ∧
    (∀ e, e ∈ delete_expired_links now h ↔
      e ∈ h ∧ ¬ (∃ t, e.expiry_timestamp = some t ∧ t ≠ 0 ∧ t < now)) ∧
    delete_expired_links now (delete_expired_links now h) =
      delete_expired_links now h := by
  refine ⟨List.filter_sublist h, ?_, ?_⟩
  · intro e
    rw [delete_expired_links, List.mem_filter]
    constructor
    · rintro ⟨he, hp⟩
      refine ⟨he, ?_⟩
      rintro ⟨t, ht, ht0, htlt⟩
      rw [is_expired_entry] at hp
      rw [ht] at hp
      simp at hp
      rcases hp with h0 | hle
      · exact ht0 h0
      · exact absurd htlt (not_lt.mpr hle)
    · rintro ⟨he, hne⟩
      refine ⟨he, ?_⟩
      rw [is_expired_entry]
      cases hexp : e.expiry_timestamp with
      | none => rfl
      | some t =>
        simp only [Bool.not_eq_true', Bool.and_eq_false_iff]
        by_cases ht0 : t = 0
        · left; simp [ht0]
        · right
          simp only [decide_eq_false_iff_not, not_lt]
          by_contra hlt
          exact hne ⟨t, hexp, ht0, by omega⟩
  · rw [delete_expired_links, delete_expired_links, List.filter_filter]
    congr 1
    funext e
    rw [Bool.and_self]

/-- Witness for C3 (amended) at a concrete history: pruning at time 100 is
idempotent. -/
theorem C3_witness :
    delete_expired_links 100 (delete_expired_links 100 [pastExpiryRec, sampleNamedRec]) =
      delete_expired_links 100 [pastExpiryRec, sampleNamedRec] :=
  (C3_prune_exact 100 [pastExpiryRec, sampleNamedRec]).2.2

/-- C7 is refuted by an already-expired record: at time 100, a record whose
expiry timestamp is 10 (long past) still gets a reminder, because the code
only tests `expiry_timestamp - current_time <= 3600`. -/
theorem C7_counterexample :
    pastExpiryRec.expiry_timestamp = some 10 ∧ (10 : Int) < 100 ∧
    remind_expiring_links 100 [pastExpiryRec] = [pastExpiryRec] := by
  refine ⟨rfl, by decide, ?_⟩
  decide

/-- C7 (amended): `remind_expiring_links` emits a reminder for exactly those
records whose `expiry_timestamp` is set and nonzero and satisfies
`expiry_timestamp - now ≤ 3600`; already-past expiries are included, not
skipped. -/
theorem C7_remind_exact (now : Int) (h : List LinkRecord) (e : LinkRecord) :
    e ∈ remind_expiring_links now h ↔
      e ∈ h ∧ ∃ t, e.expiry_timestamp = some t ∧ t ≠ 0 ∧ t - now ≤ 3600 := by
  rw [remind_expiring_links, List.mem_filter]
  constructor
  · rintro ⟨he, hp⟩
    refine ⟨he, ?_⟩
    cases hexp : e.expiry_timestamp with
    | none => rw [hexp] at hp; exact absurd hp (by simp)
    | some t =>
      rw [hexp] at hp
      simp only [Bool.and_eq_true, decide_eq_true_eq] at hp
      exact ⟨t, rfl, hp.1, hp.2⟩
  · rintro ⟨he, t, ht, ht0, htle⟩
    refine ⟨he, ?_⟩
    rw [ht]
    simp [ht0, htle]

/-- Witness for C7 (amended) at a concrete record and time. -/
theorem C7_witness :
    pastExpiryRec ∈ remind_expiring_links 100 [pastExpiryRec] ↔
      pastExpiryRec ∈ [pastExpiryRec] ∧
      ∃ t, pastExpiryRec.expiry_timestamp = some t ∧ t ≠ 0 ∧ t - 100 ≤ 3600 :=
  C7_remind_exact 100 [pastExpiryRec] pastExpiryRec

/-- When no entry carries the given custom name, the scan reports not-found. -/
theorem update_scan_notFound (now : Int) (shorten : String → String) (name : String)
    (nlu : Option String) (nes : Option Int) :
    ∀ (h : List LinkRecord), (∀ e ∈ h, e.custom_name ≠ some name) →
      update_scan now shorten name nlu nes h = .notFound := by
  intro h
  induction h with
  | nil => intro _; rfl
  | cons e rest ih =>
    intro hall
    simp only [update_scan]
    rw [if_neg (hall e (List.mem_cons_self e rest)),
      ih (fun x hx => hall x (List.mem_cons_of_mem e hx))]

/-- A non-empty invalid new URL aborts the scan at the first matching
entry. -/
theorem update_scan_aborted (now : Int) (shorten : String → String) (name s : String)
    (nes : Option Int) (hs : s ≠ "") (hv : is_valid_url s = false) :
    ∀ (h : List LinkRecord), (∃ e ∈ h, e.custom_name = some name) →
      update_scan now shorten name (some s) nes h = .aborted := by
  intro h
  induction h with
  | nil => rintro ⟨e, he, _⟩; exact absurd he (List.not_mem_nil e)
  | cons e rest ih =>
    intro hex
    by_cases hmatch : e.custom_name = some name
    · simp only [update_scan]
      rw [if_pos hmatch]
      have hent : update_entry now shorten (some s) nes e = none := by
        simp [update_entry, hs, hv]
      rw [hent]
    · simp only [update_scan]
      rw [if_neg hmatch]
      have hex1 : ∃ x ∈ rest, x.custom_name = some name := by
        rcases hex with ⟨x, hx, hxn⟩
        rcases List.mem_cons.mp hx with h1 | h2
        · exact absurd (h1 ▸ hxn) hmatch
        · exact ⟨x, h2, hxn⟩
      rw [ih hex1]

/-- C6 (amended): `update_link` leaves the stored history unchanged when no
record carries the given custom name, and when a matching record exists but
the supplied `new_long_url` is non-empty and fails validation (an empty
string is falsy in Python, skips the validation branch entirely, and lets a
supplied expiry be applied). -/
theorem C6_failed_updates_leave_history (now : Int) (shorten : String → String)
    (name : String) (h : List LinkRecord) :
    (∀ (nlu : Option String) (nes : Option Int),
      (∀ e ∈ h, e.custom_name ≠ some name) →
      update_link now shorten name nlu nes h = (h, .linkNotFound)) ∧
    (∀ (s : String) (nes : Option Int),
      s ≠ "" → is_valid_url s = false → (∃ e ∈ h, e.custom_name = some name) →
      update_link now shorten name (some s) nes h = (h, .newUrlInvalid)) := by
  constructor
  · intro nlu nes hall
    rw [update_link, update_scan_notFound now shorten name nlu nes h hall]
  · intro s nes hs hv hex
    rw [update_link, update_scan_aborted now shorten name s nes hs hv h hex]

/-- Counterexample to C6: with a matching record, a supplied empty-string
`new_long_url` fails validation, yet the stored history changes — the
supplied expiry is applied and the file is rewritten, because `if
new_long_url:` treats `""` as absent. -/
theorem C6_counterexample :
    is_valid_url "" = false ∧
    update_link 100 (fun _ => "unused") "a" (some "") (some 50) [sampleNamedRec] =
      ([{ sampleNamedRec with expiry_timestamp := some 150 }], .linkUpdated) ∧
    [{ sampleNamedRec with expiry_timestamp := some 150 }] ≠ [sampleNamedRec] := by
  refine ⟨by decide, by decide, by decide⟩

/-- A concrete record whose custom name is `"b"`, not `"a"`. -/
def otherNamedRec : LinkRecord :=
  { long_url := "http://b.com", short_url := "https://tinyurl.com/b"
    timestamp := "t", custom_name := some "b", expiry_timestamp := none }

/-- Witness for C6: a non-matching name and an invalid (non-empty) new URL
both leave a concrete stored history unchanged. -/
theorem C6_witness :
    update_link 0 (fun _ => "unused") "a" none none [otherNamedRec] =
      ([otherNamedRec], .linkNotFound) ∧
    update_link 0 (fun _ => "unused") "a" (some "not a url") (some 50)
        [sampleNamedRec] = ([sampleNamedRec], .newUrlInvalid) :=
  ⟨(C6_failed_updates_leave_history 0 (fun _ => "unused") "a" [otherNamedRec]).1
      none none (by decide),
    (C6_failed_updates_leave_history 0 (fun _ => "unused") "a" [sampleNamedRec]).2
      "not a url" (some 50) (by decide) (by decide) (by decide)⟩

/-- On a valid non-empty new URL, the loop body replaces `long_url` and
`short_url` (with whatever text the shortening client returned). -/
theorem update_entry_valid (now : Int) (shorten : String → String) (s : String)
    (nes : Option Int) (e : LinkRecord) (hs : s ≠ "") (hv : is_valid_url s = true) :
    ∃ e1, update_entry now shorten (some s) nes e = some e1 ∧
      e1.long_url = s ∧ e1.short_url = shorten s := by
  cases nes with
  | none =>
    refine ⟨{ e with long_url := s, short_url := shorten s }, ?_, rfl, rfl⟩
    simp [update_entry, hs, hv]
  | some n =>
    refine ⟨{ e with long_url := s, short_url := shorten s, expiry_timestamp := some (now + n) }, ?_, rfl, rfl⟩
    simp [update_entry, hs, hv]

/-- With a matching name and a valid new URL, the scan produces an updated
list containing an entry whose `short_url` is exactly the client's text. -/
theorem update_scan_found_short (now : Int) (shorten : String → String)
    (name s : String) (nes : Option Int) (hs : s ≠ "") (hv : is_valid_url s = true) :
    ∀ (h : List LinkRecord), (∃ e ∈ h, e.custom_name = some name) →
      ∃ h1, update_scan now shorten name (some s) nes h = .found h1 ∧
        ∃ e1 ∈ h1, e1.long_url = s ∧ e1.short_url = shorten s := by
  intro h
  induction h with
  | nil => rintro ⟨e, he, _⟩; exact absurd he (List.not_mem_nil e)
  | cons e rest ih =>
    intro hex
    by_cases hmatch : e.custom_name = some name
    · obtain ⟨e1, hent, hl, hsu⟩ := update_entry_valid now shorten s nes e hs hv
      refine ⟨e1 :: rest, ?_, e1, List.mem_cons_self e1 rest, hl, hsu⟩
      simp only [update_scan]
      rw [if_pos hmatch, hent]
    · have hex1 : ∃ x ∈ rest, x.custom_name = some name := by
        rcases hex with ⟨x, hx, hxn⟩
        rcases List.mem_cons.mp hx with h1 | h2
        · exact absurd (h1 ▸ hxn) hmatch
        · exact ⟨x, h2, hxn⟩
      obtain ⟨h1, hscan, e1, he1, hl, hsu⟩ := ih hex1
      refine ⟨e :: h1, ?_, e1, List.mem_cons_of_mem e he1, hl, hsu⟩
      simp only [update_scan]
      rw [if_neg hmatch, hscan]

/-- C9: `update_link` with a matching record and a valid new URL persists the
shortening client's text as `short_url` unconditionally — even error-marked
text — whereas the create and clipboard flows leave the history untouched
whenever the result contains `"Error"`. -/
theorem C9_update_persists_error_text (now : Int) (shorten : String → String)
    (name s : String) (nes : Option Int) (h : List LinkRecord)
    (h0 : List LinkRecord) (lu : String) (resp : Nat → String)
    (cn : Option String) (es : Option Int) (now0 : Int) (ct : String) :
    (s ≠ "" → is_valid_url s = true → (∃ e ∈ h, e.custom_name = some name) →
      (update_link now shorten name (some s) nes h).2 = .linkUpdated ∧
      ∃ e1 ∈ (update_link now shorten name (some s) nes h).1,
        e1.long_url = s ∧ e1.short_url = shorten s) ∧
    (hasError (shorten_url lu resp).result = true →
      menu_create_flow h0 lu resp cn es now0 ct = h0 ∧
      shorten_url_from_clipboard h0 lu resp now0 ct = h0) := by
  constructor
  · intro hs hv hex
    obtain ⟨h1, hscan, e1, he1, hl, hsu⟩ :=
      update_scan_found_short now shorten name s nes hs hv h hex
    rw [update_link, hscan]
    exact ⟨rfl, e1, he1, hl, hsu⟩
  · intro herr
    constructor
    · simp [menu_create_flow, herr]
    · by_cases hvc : is_valid_url lu = true
      · simp [shorten_url_from_clipboard, hvc, herr]
      · simp [shorten_url_from_clipboard, hvc]

/-- Witness for C9: a client returning `"HTTP Error: 500"` has that text
persisted by `update_link`, while the create flow stores nothing for the
same kind of result. -/
theorem C9_witness :
    ((update_link 0 (fun _ => "HTTP Error: 500") "a" (some "http://new.com") none
        [sampleNamedRec]).2 = .linkUpdated ∧
      ∃ e1 ∈ (update_link 0 (fun _ => "HTTP Error: 500") "a" (some "http://new.com")
          none [sampleNamedRec]).1,
        e1.long_url = "http://new.com" ∧ e1.short_url = "HTTP Error: 500") ∧
    (menu_create_flow [] "http://example.com" respAllErr none none 0 "t" = [] ∧
      shorten_url_from_clipboard [] "http://example.com" respAllErr 0 "t" = []) :=
  ⟨(C9_update_persists_error_text 0 (fun _ => "HTTP Error: 500") "a" "http://new.com"
      none [sampleNamedRec] [] "http://example.com" respAllErr none none 0 "t").1
      (by decide) (by decide) (by decide),
    (C9_update_persists_error_text 0 (fun _ => "HTTP Error: 500") "a" "http://new.com"
      none [sampleNamedRec] [] "http://example.com" respAllErr none none 0 "t").2
      (by decide)⟩

/-- C10: an expiry of zero seconds is asymmetric — `save_to_history` with
`expiry_seconds = 0` stores no expiry at all (Python truthiness), while
`update_link` with `new_expiry_seconds = 0` (which only tests `is not None`)
stamps the record with the current time. -/
theorem C10_zero_expiry_asymmetry :
    (∀ (h : List LinkRecord) (lu su : String) (cn : Option String)
        (now : Int) (ct : String),
      (mkRecord lu su cn (some 0) now ct).expiry_timestamp = none ∧
      save_to_history h lu su cn (some 0) now ct =
        save_to_history h lu su cn none now ct) ∧
    (∀ (now : Int) (shorten : String → String) (name : String) (e : LinkRecord)
        (rest : List LinkRecord), e.custom_name = some name →
      update_link now shorten name none (some 0) (e :: rest) =
        ({ e with expiry_timestamp := some now } :: rest, .linkUpdated)) := by
  constructor
  · intro h lu su cn now ct
    exact ⟨by simp [mkRecord], by simp [save_to_history, mkRecord]⟩
  · intro now shorten name e rest hmatch
    simp only [update_link, update_scan]
    rw [if_pos hmatch]
    simp [update_entry]

/-- Witness for C10 at concrete inputs: saving with expiry 0 yields a record
that never expires; updating with expiry 0 stamps the current time 100. -/
theorem C10_witness :
    (mkRecord "http://u.com" "s" none (some 0) 7 "t").expiry_timestamp = none ∧
    update_link 100 (fun _ => "unused") "a" none (some 0) [sampleNamedRec] =
      ([{ sampleNamedRec with expiry_timestamp := some 100 }], .linkUpdated) :=
  ⟨(C10_zero_expiry_asymmetry.1 [] "http://u.com" "s" none 7 "t").1,
    C10_zero_expiry_asymmetry.2 100 (fun _ => "unused") "a" sampleNamedRec []
      (by decide)⟩

/-- The record just appended always survives the trim step: it is the last
stored record. -/
theorem save_record_getLast (h : List LinkRecord) (r : LinkRecord) :
    (save_record h r).getLast? = some r := by
  rw [save_record_eq_boundHist]
  unfold boundHist
  split
  · rename_i hgt
    have hlen : (h ++ [r]).length = h.length + 1 := by simp
    have hm : MAX_HISTORY_SIZE = 5 := rfl
    have hk : (h ++ [r]).length - MAX_HISTORY_SIZE ≤ h.length := by omega
    rw [List.drop_append_of_le_length hk, List.getLast?_concat]
  · exact List.getLast?_concat h

/-- Counterexample to C1: an all-error shortening attempt through the create
flow or the clipboard flow appends nothing — the error text is never stored
as a record's `short_url`, because both flows test `"Error" not in
short_url` before saving. -/
theorem C1_counterexample :
    hasError (shorten_url "http://example.com" respAllErr).result = true ∧
    menu_create_flow [] "http://example.com" respAllErr none none 0 "t" = [] ∧
    shorten_url_from_clipboard [] "http://example.com" respAllErr 0 "t" = [] := by
  refine ⟨by decide, by decide, by decide⟩

/-- C1 (amended): the interactive create flow and the clipboard flow append a
record only when the shortening result does not contain `"Error"`; an
error-marked result leaves the stored history unchanged, and a clean result
is appended as the last record with that result as its `short_url`. -/
theorem C1_flows_save_only_clean (h : List LinkRecord) (lu : String)
    (resp : Nat → String) (cn : Option String) (es : Option Int)
    (now : Int) (ct : String) :
    (hasError (shorten_url lu resp).result = true →
      menu_create_flow h lu resp cn es now ct = h ∧
      shorten_url_from_clipboard h lu resp now ct = h) ∧
    (hasError (shorten_url lu resp).result = false →
      (menu_create_flow h lu resp cn es now ct).getLast? =
        some (mkRecord lu (shorten_url lu resp).result cn es now ct) ∧
      (is_valid_url lu = true →
        (shorten_url_from_clipboard h lu resp now ct).getLast? =
          some (mkRecord lu (shorten_url lu resp).result none none now ct))) := by
  constructor
  · intro herr
    constructor
    · simp [menu_create_flow, herr]
    · by_cases hvc : is_valid_url lu = true
      · simp [shorten_url_from_clipboard, hvc, herr]
      · simp [shorten_url_from_clipboard, hvc]
  · intro hclean
    constructor
    · simp only [menu_create_flow, hclean, Bool.false_eq_true, if_false]
      exact save_record_getLast h _
    · intro hvc
      simp only [shorten_url_from_clipboard, hvc, hclean, Bool.false_eq_true,
        if_false, not_true, ite_false]
      exact save_record_getLast h _

/-- Witness for C1: at concrete inputs, all-error responses append nothing,
and a clean third response is appended as the last record. -/
theorem C1_witness :
    (menu_create_flow [] "http://example.com" respAllErr none none 0 "t" = [] ∧
      shorten_url_from_clipboard [] "http://example.com" respAllErr 0 "t" = []) ∧
    (menu_create_flow [] "http://example.com" respErrErrClean none none 0 "t").getLast? =
      some (mkRecord "http://example.com"
        (shorten_url "http://example.com" respErrErrClean).result none none 0 "t") :=
  ⟨(C1_flows_save_only_clean [] "http://example.com" respAllErr none none 0 "t").1
      (by decide),
    ((C1_flows_save_only_clean [] "http://example.com" respErrErrClean none none
      0 "t").2 (by decide)).1⟩

end ShortLink
